import Mathlib

/-!
Verification of the N_League mahjong record-keeping plugin (src/main.py).

The embedding models the plugin's state and operations over exact rationals:
Python's float arithmetic on these small decimal quantities is modelled by ℚ,
and Python's round(x, n) by rounding x * 10^n to the nearest integer.  Every
definition below is translated from the corresponding function in src/main.py;
the only spec-side definitions are clearly marked as such.
-/

/-- Python round(x, 1) modelled over ℚ: round 10x to the nearest integer and
divide by 10. -/
def round1 (x : ℚ) : ℚ := ((round (10 * x) : ℤ) : ℚ) / 10

/-- Python round(x, 2) modelled over ℚ. -/
def round2 (x : ℚ) : ℚ := ((round (100 * x) : ℤ) : ℚ) / 100

/-- A per-player career record, as created and mutated by main.py
(the dict literal at lines 219-226 / 271-278 / 407).  The optional fields
regular_raw_pt / regular_ranking_pt / is_finalist only appear after the
playoff transition; absence is modelled by the defaults. -/
structure PlayerRecord where
  name : String
  total_pt : ℚ
  total_matches : ℕ
  ranks : List ℕ
  max_score : ℤ
  avoid_4_rate : ℚ
  is_finalist : Bool := false
  regular_raw_pt : Option ℚ := none
  regular_ranking_pt : Option ℚ := none
deriving DecidableEq, Repr

/-- The fresh record main.py creates on first sight of a player. -/
def defaultRec (nm : String) : PlayerRecord :=
  { name := nm, total_pt := 0, total_matches := 0, ranks := [0, 0, 0, 0],
    max_score := 0, avoid_4_rate := 0 }

/-- A value stored in a per-context mapping: either a player record (a dict in
Python) or the reserved boolean flag is_playoffs, which main.py stores in the
same mapping (ctx_data["is_playoffs"] = True at line 432). -/
inductive Entry
  | record (r : PlayerRecord)
  | flag (b : Bool)
deriving DecidableEq, Repr

/-- The per-context mapping from key to entry, in Python dict insertion
order. -/
abbrev CtxData := List (String × Entry)

/-- Association-list lookup, modelling Python dict indexing / .get. -/
def lookupA {α : Type} : List (String × α) → String → Option α
  | [], _ => none
  | (k, v) :: t, key => if k = key then some v else lookupA t key

/-- Association-list store, modelling Python dict assignment: an existing key
keeps its position, a new key is appended (dict insertion order). -/
def setA {α : Type} : List (String × α) → String → α → List (String × α)
  | [], key, v => [(key, v)]
  | (k, w) :: t, key, v =>
    if k = key then (k, v) :: t else (k, w) :: setA t key v

/-- Association-list delete, modelling Python del. -/
def eraseA {α : Type} (l : List (String × α)) (key : String) :
    List (String × α) :=
  l.filter (fun p => p.1 ≠ key)

/-- ctx_data.setdefault(uid, fresh-record) followed by reading it as a
record, as in _finalize_match (line 219) and chombo (line 269). -/
def getOrCreateRec (d : CtxData) (uid nm : String) : PlayerRecord :=
  match lookupA d uid with
  | some (.record r) => r
  | _ => defaultRec nm

/-- The stored max_score of uid in d, 0 when no record exists. -/
def maxScoreIn (d : CtxData) (uid : String) : ℤ :=
  match lookupA d uid with
  | some (.record r) => r.max_score
  | _ => 0

/-- Python truthiness of a stored entry: a (non-empty) dict is truthy, a bool
is itself. -/
def entryTruthy : Entry → Bool
  | .record _ => true
  | .flag b => b

/-- ctx_data.get("is_playoffs", False) interpreted as a condition. -/
def getPlayoffs (d : CtxData) : Bool :=
  match lookupA d "is_playoffs" with
  | some e => entryTruthy e
  | none => false

/-- ranks[n] += 1 on a list of counters (in-range in every reachable call). -/
def incNth : List ℕ → ℕ → List ℕ
  | [], _ => []
  | x :: t, 0 => (x + 1) :: t
  | x :: t, n + 1 => x :: incNth t n

/-- The final_uma dict of _calculate_pt_custom (line 60); indexing it with a
rank outside 1..4 raises KeyError, modelled by none. -/
def finalUma : ℕ → Option ℚ
  | 1 => some 50
  | 2 => some 10
  | 3 => some (-10)
  | 4 => some (-30)
  | _ => none

/-- _calculate_pt_custom (lines 50-61): the returned value is
round((score - 30000) / 1000 + final_uma[rank], 1); the intermediate pt
computed at line 58 is dead code and does not affect the result. -/
def calculate_pt_custom (score : ℤ) (rank : ℕ) : Option ℚ :=
  (finalUma rank).map (fun u => round1 (((score : ℚ) - 30000) / 1000 + u))

/-- Spec-side uma table, written exactly as the spec words it
(uma = {1: +50.0, 2: +10.0, 3: -10.0, 4: -30.0}); kept separate from
finalUma so the refinement theorem compares the two. -/
def umaSpec : ℕ → ℚ
  | 1 => 50
  | 2 => 10
  | 3 => -10
  | 4 => -30
  | _ => 0

/-- One player's record update during settlement (_finalize_match lines
228-237): overwrite name, add the pt delta re-rounded to 1 decimal, bump
total_matches and ranks[rank-1], update max_score if exceeded, recompute
avoid_4_rate from the updated counters. -/
def updateRec (r : PlayerRecord) (nm : String) (pt : ℚ) (rank : ℕ)
    (score : ℤ) : PlayerRecord :=
  let mc := r.total_matches + 1
  let rks := incNth r.ranks (rank - 1)
  { r with
    name := nm
    total_pt := round1 (r.total_pt + pt)
    total_matches := mc
    ranks := rks
    max_score := if score > r.max_score then score else r.max_score
    avoid_4_rate := round2 ((((rks.take 3).sum : ℚ) / (mc : ℚ)) * 100) }

/-- The settlement loop of _finalize_match (lines 212-240): walk the sorted
(uid, score) pairs assigning ranks 1, 2, …; none models the KeyError that
final_uma[rank] would raise on a rank outside 1..4. -/
def settleGo (players : List (String × String)) :
    ℕ → List (String × ℤ) → CtxData → Option CtxData
  | _, [], d => some d
  | rank, (uid, sc) :: rest, d =>
    match calculate_pt_custom sc rank with
    | none => none
    | some pt =>
      let nm := (lookupA players uid).getD ""
      settleGo players (rank + 1) rest
        (setA d uid (.record (updateRec (getOrCreateRec d uid nm) nm pt rank sc)))

/-- sorted(match["scores"].items(), key=lambda x: x[1], reverse=True):
a stable descending sort by score. -/
def sortScoresDesc (l : List (String × ℤ)) : List (String × ℤ) :=
  l.insertionSort (fun p q => q.2 ≤ p.2)

/-- States of a match session ("recruiting" / "playing" in main.py). -/
inductive MatchStatus
  | recruiting
  | playing
deriving DecidableEq, Repr

/-- The ephemeral per-context match session of main.py (lines 68-72). -/
structure MatchSession where
  players : List (String × String)
  scores : List (String × ℤ)
  status : MatchStatus
deriving DecidableEq, Repr

/-- _finalize_match (lines 205-245) restricted to its effect on the stored
context data: sort scores descending and fold the per-player update. -/
def finalize_match (d : CtxData) (m : MatchSession) : Option CtxData :=
  settleGo m.players 1 (sortScoresDesc m.scores) d

/-- The user-visible outcome of a score submission (end_match). -/
inductive SubmitResult
  | wrongState
  | notParticipant
  | recorded (count : ℕ)
  | mismatch (total diff : ℤ) (details : List (String × ℤ))
  | settle
deriving DecidableEq, Repr

/-- The per-player breakdown printed on a sum mismatch (lines 180-184):
(display name, submitted score) in submission order. -/
def detailsOf (m : MatchSession) : List (String × ℤ) :=
  m.scores.map (fun p => ((lookupA m.players p.1).getD "", p.2))

/-- end_match (lines 146-203) given an existing session: record the score
(overwriting), and when all 4 scores are present either report the sum
mismatch (keeping the session) or settle and destroy the session.  The outer
Option models the unreachable KeyError inside settlement; the inner
Option MatchSession is the session slot afterwards (none = deleted). -/
def end_match (d : CtxData) (m : MatchSession) (uid : String) (score : ℤ) :
    Option (Option MatchSession × CtxData × SubmitResult) :=
  if m.status ≠ .playing then some (some m, d, .wrongState)
  else if (lookupA m.players uid).isNone then some (some m, d, .notParticipant)
  else
    let m2 : MatchSession := { m with scores := setA m.scores uid score }
    if m2.scores.length = 4 then
      let total := (m2.scores.map Prod.snd).sum
      if total ≠ 100000 then
        some (some m2, d, .mismatch total (total - 100000) (detailsOf m2))
      else
        (finalize_match d m2).map (fun d2 => (none, d2, .settle))
    else some (some m2, d, .recorded m2.scores.length)

/-- A sequence of settled matches applied to a context's data. -/
def runMatches (d : CtxData) : List MatchSession → Option CtxData
  | [] => some d
  | m :: ms =>
    match finalize_match d m with
    | none => none
    | some d2 => runMatches d2 ms

/-- The table scores recorded for uid across a sequence of matches. -/
def scoresOf (uid : String) (ms : List MatchSession) : List ℤ :=
  ms.filterMap (fun m => lookupA m.scores uid)

/-- chombo (lines 247-292) restricted to one context's data: fetch-or-create
the record (placeholder name derived from the id), subtract 20.0 re-rounded
to 1 decimal, and report the updated total_pt and name. -/
def chomboCtx (d : CtxData) (uid : String) : CtxData × ℚ × String :=
  let r0 := getOrCreateRec d uid ("用户" ++ uid)
  let r1 := { r0 with total_pt := round1 (r0.total_pt - 20) }
  (setA d uid (.record r1), r1.total_pt, r1.name)

/-- The whole plugin state: the persisted store (data) and the volatile
session map (active_matches). -/
structure PluginState where
  data : List (String × CtxData)
  active : List (String × MatchSession)
deriving DecidableEq, Repr

/-- chombo at the plugin level: self.data.setdefault(ctx_id, {}) then the
per-context penalty; active_matches is untouched. -/
def chombo (s : PluginState) (ctx uid : String) : PluginState × ℚ × String :=
  let d := (lookupA s.data ctx).getD []
  let res := chomboCtx d uid
  ({ s with data := setA s.data ctx res.1 }, res.2)

/-- Outcome of the playoff transition command. -/
inductive FinalsResult
  | alreadyPlayoffs
  | wrongCount (n : ℕ)
  | ok
deriving DecidableEq, Repr

/-- The per-finalist update of setup_finals (lines 409-426): snapshot the
raw pt and penalty-adjusted ranking pt, halve the ranking pt (rounded to 1
decimal) as the playoff seed, and mark the player a finalist. -/
def finalsUpd (r : PlayerRecord) : PlayerRecord :=
  let raw := r.total_pt
  let penalty : ℚ := ((max 0 (18 - (r.total_matches : ℤ)) : ℤ) : ℚ) * 50
  let ranking := raw - penalty
  { r with
    regular_raw_pt := some raw
    regular_ranking_pt := some ranking
    total_pt := round1 (ranking / 2)
    is_finalist := true }

/-- The loop over the four finalist ids in setup_finals (lines 405-430). -/
def finalsGo : List String → CtxData → CtxData
  | [], d => d
  | uid :: rest, d =>
    finalsGo rest
      (setA d uid (.record (finalsUpd (getOrCreateRec d uid ("选手" ++ uid)))))

/-- setup_finals (lines 378-439) on a context's data and a deduplicated
finalist id list; the Bool records whether _save_data was called. -/
def setup_finals (d : CtxData) (uids : List String) :
    CtxData × Bool × FinalsResult :=
  if getPlayoffs d then (d, false, .alreadyPlayoffs)
  else if uids.length ≠ 4 then (d, false, .wrongCount uids.length)
  else (setA (finalsGo uids d) "is_playoffs" (.flag true), true, .ok)

/-- Error outcomes of the rank query. -/
inductive RankErr
  | noData
  | typeError
deriving DecidableEq, Repr

/-- Reading an entry as a player record; none for the boolean flag (in
Python, subscripting a bool raises TypeError). -/
def entryRec : Entry → Option PlayerRecord
  | .record r => some r
  | .flag _ => none

/-- ctx_data.items() read as a list of player records; none as soon as any
entry is not a dict, modelling the TypeError raised by the sort key
x[1]["total_pt"] on a boolean entry (show_rank line 318). -/
def asRecords : CtxData → Option (List (String × PlayerRecord))
  | [] => some []
  | (k, e) :: t =>
    match entryRec e with
    | none => none
    | some r => (asRecords t).map (fun l => (k, r) :: l)

/-- sorted(users, key=lambda x: x[1]["total_pt"], reverse=True). -/
def sortRecsDescPt (l : List (String × PlayerRecord)) :
    List (String × PlayerRecord) :=
  l.insertionSort (fun p q => q.2.total_pt ≤ p.2.total_pt)

/-- The raw-pt branch of show_rank (lines 300-322): empty context data is the
NoData reply; otherwise every stored entry is sorted by its total_pt field,
which raises TypeError (modelled as error typeError) if the is_playoffs flag
entry is present among the items. -/
def show_rank_pt (d : CtxData) : Except RankErr (List (String × PlayerRecord)) :=
  if d.isEmpty then .error .noData
  else
    match asRecords d with
    | none => .error .typeError
    | some l => .ok (sortRecsDescPt l)

/-- The finalist filter of show_finals_rank (lines 451-454): keep entries
that are dicts with is_finalist truthy. -/
def finalistRecs (d : CtxData) : List PlayerRecord :=
  d.filterMap (fun p =>
    match p.2 with
    | .record r => if r.is_finalist then some r else none
    | .flag _ => none)

/-- finalists.sort(key=lambda x: x["total_pt"], reverse=True). -/
def sortFinalists (l : List PlayerRecord) : List PlayerRecord :=
  l.insertionSort (fun p q => q.total_pt ≤ p.total_pt)

/-- show_finals_rank (lines 441-465) restricted to its data: fails when the
playoffs flag is unset, otherwise lists the finalist records by descending
total_pt. -/
def show_finals_rank (d : CtxData) : Except Unit (List PlayerRecord) :=
  if getPlayoffs d then .ok (sortFinalists (finalistRecs d)) else .error ()

/-- reset_season (lines 467-483): drop any active session for the context
and, when the context has stored data, replace it with the empty mapping. -/
def reset_season (s : PluginState) (ctx : String) : PluginState :=
  { data := if (lookupA s.data ctx).isSome then setA s.data ctx [] else s.data
    active := eraseA s.active ctx }

/-- The rank-counter invariant of a record (spec section 3). -/
def goodRec (r : PlayerRecord) : Prop :=
  r.ranks.sum = r.total_matches ∧ r.ranks.length = 4

/-- The avoid_4_rate formula of the spec, as a predicate on a record. -/
def avoidOk (r : PlayerRecord) : Prop :=
  r.avoid_4_rate = round2 ((((r.ranks.take 3).sum : ℚ) / (r.total_matches : ℚ)) * 100)

/-- Every record stored in the context data satisfies the rank-counter
invariant. -/
def ctxInv (d : CtxData) : Prop :=
  ∀ uid r, lookupA d uid = some (.record r) → goodRec r

/-- A concrete full session used to exercise the theorems: 4 players, 4
submitted scores summing to 100000. -/
def mW : MatchSession :=
  { players := [("a", "A"), ("b", "B"), ("c", "C"), ("d", "D")]
    scores := [("a", 40000), ("b", 30000), ("c", 20000), ("d", 10000)]
    status := .playing }

/-- A concrete settled session in which player b's only table score is
negative (the four scores still sum to 100000). -/
def mC6 : MatchSession :=
  { players := [("a", "A"), ("b", "B"), ("c", "C"), ("d", "D")]
    scores := [("a", 103000), ("b", -1000), ("c", -1000), ("d", -1000)]
    status := .playing }

/-- A concrete playing session in which only 3 of the 4 participants have
recorded a score. -/
def mPartial : MatchSession :=
  { players := [("a", "A"), ("b", "B"), ("c", "C"), ("d", "D")]
    scores := [("a", 40000), ("b", 30000), ("c", 20000)]
    status := .playing }

/-- A concrete context store holding one player record plus the reserved
is_playoffs flag entry, exactly the layout main.py writes after the playoff
transition. -/
def dC5 : CtxData :=
  [("u1", .record (defaultRec "A")), ("is_playoffs", .flag true)]

/-- A concrete playoff-mode store with two finalists. -/
def dC10 : CtxData :=
  [("is_playoffs", .flag true),
   ("u1", .record { defaultRec "A" with is_finalist := true, total_pt := 10 }),
   ("u2", .record { defaultRec "B" with is_finalist := true, total_pt := 30 })]

/-! ### Association-list lemmas -/

theorem lookupA_setA_self {α : Type} (l : List (String × α)) (k : String) (v : α) :
    lookupA (setA l k v) k = some v := by
  induction l with
  | nil => simp [setA, lookupA]
  | cons p t ih =>
    obtain ⟨k1, w⟩ := p
    by_cases h : k1 = k
    · subst h; simp [setA, lookupA]
    · simp [setA, lookupA, h, ih]

theorem lookupA_setA_ne {α : Type} (l : List (String × α)) (k k2 : String) (v : α)
    (h : k2 ≠ k) : lookupA (setA l k v) k2 = lookupA l k2 := by
  have h3 : ¬(k = k2) := fun hh => h hh.symm
  induction l with
  | nil => simp [setA, lookupA, h3]
  | cons p t ih =>
    obtain ⟨k1, w⟩ := p
    by_cases h1 : k1 = k
    · subst h1
      simp [setA, lookupA, h3]
    · simp [setA, lookupA, h1, ih]

theorem lookupA_mem {α : Type} {l : List (String × α)} {k : String} {v : α}
    (h : lookupA l k = some v) : (k, v) ∈ l := by
  induction l with
  | nil => simp [lookupA] at h
  | cons p t ih =>
    obtain ⟨k1, w⟩ := p
    by_cases h1 : k1 = k
    · subst h1
      simp [lookupA] at h
      simp [h]
    · simp [lookupA, h1] at h
      exact List.mem_cons_of_mem _ (ih h)

theorem lookupA_eq_none_iff {α : Type} (l : List (String × α)) (k : String) :
    lookupA l k = none ↔ k ∉ l.map Prod.fst := by
  induction l with
  | nil => simp [lookupA]
  | cons p t ih =>
    obtain ⟨k1, w⟩ := p
    by_cases h1 : k1 = k
    · subst h1; simp [lookupA]
    · simp [lookupA, h1, ih]
      intro _
      exact fun hh => h1 hh.symm

theorem length_setA_of_isSome {α : Type} {l : List (String × α)} {k : String}
    (v : α) (h : (lookupA l k).isSome) : (setA l k v).length = l.length := by
  induction l with
  | nil => simp [lookupA] at h
  | cons p t ih =>
    obtain ⟨k1, w⟩ := p
    by_cases h1 : k1 = k
    · subst h1; simp [setA]
    · simp [lookupA, h1] at h
      simp [setA, h1, ih h]

theorem lookupA_eraseA {α : Type} (l : List (String × α)) (k : String) :
    lookupA (eraseA l k) k = none := by
  induction l with
  | nil => simp [eraseA, lookupA]
  | cons p t ih =>
    obtain ⟨k1, w⟩ := p
    by_cases h1 : k1 = k
    · subst h1; simpa [eraseA, List.filter] using ih
    · simpa [eraseA, List.filter, h1, lookupA] using ih

/-! ### Rank-counter lemmas -/

theorem incNth_length (l : List ℕ) (n : ℕ) : (incNth l n).length = l.length := by
  induction l generalizing n with
  | nil => simp [incNth]
  | cons x t ih =>
    cases n with
    | zero => simp [incNth]
    | succ n => simp [incNth, ih]

theorem incNth_sum {l : List ℕ} {n : ℕ} (h : n < l.length) :
    (incNth l n).sum = l.sum + 1 := by
  induction l generalizing n with
  | nil => simp at h
  | cons x t ih =>
    cases n with
    | zero => simp [incNth]; omega
    | succ n =>
      simp only [incNth, List.sum_cons]
      rw [ih (by simpa using h)]
      omega

/-! ### Score-conversion lemmas -/

theorem calculate_pt_eq (sc : ℤ) (rank : ℕ) (h1 : 1 ≤ rank) (h2 : rank ≤ 4) :
    calculate_pt_custom sc rank =
      some (round1 (((sc : ℚ) - 30000) / 1000 + umaSpec rank)) := by
  interval_cases rank <;> rfl

theorem calculate_pt_rank_bounds {sc : ℤ} {rank : ℕ} {pt : ℚ}
    (h : calculate_pt_custom sc rank = some pt) : 1 ≤ rank ∧ rank ≤ 4 := by
  rcases rank with _ | _ | _ | _ | _ | n <;>
    simp [calculate_pt_custom, finalUma] at h ⊢

/-! ### Record-invariant lemmas -/

theorem goodRec_defaultRec (nm : String) : goodRec (defaultRec nm) :=
  ⟨rfl, rfl⟩

theorem getOrCreateRec_good {d : CtxData} (hinv : ctxInv d) (uid nm : String) :
    goodRec (getOrCreateRec d uid nm) := by
  unfold getOrCreateRec
  cases h : lookupA d uid with
  | none => exact goodRec_defaultRec nm
  | some e =>
    cases e with
    | record r => exact hinv uid r h
    | flag b => exact goodRec_defaultRec nm

theorem getOrCreateRec_max (d : CtxData) (uid nm : String) :
    (getOrCreateRec d uid nm).max_score = maxScoreIn d uid := by
  unfold getOrCreateRec maxScoreIn
  cases h : lookupA d uid with
  | none => rfl
  | some e => cases e with
    | record r => rfl
    | flag b => rfl

theorem updateRec_good {r : PlayerRecord} (hg : goodRec r) {rank : ℕ}
    (h1 : 1 ≤ rank) (h2 : rank ≤ 4) (nm : String) (pt : ℚ) (sc : ℤ) :
    goodRec (updateRec r nm pt rank sc) := by
  obtain ⟨hs, hl⟩ := hg
  constructor
  · show (incNth r.ranks (rank - 1)).sum = r.total_matches + 1
    rw [incNth_sum (by omega), hs]
  · show (incNth r.ranks (rank - 1)).length = 4
    rw [incNth_length, hl]

theorem updateRec_avoidOk (r : PlayerRecord) (nm : String) (pt : ℚ) (rank : ℕ)
    (sc : ℤ) : avoidOk (updateRec r nm pt rank sc) := rfl

theorem updateRec_max (r : PlayerRecord) (nm : String) (pt : ℚ) (rank : ℕ)
    (sc : ℤ) : (updateRec r nm pt rank sc).max_score = max r.max_score sc := by
  show (if sc > r.max_score then sc else r.max_score) = max r.max_score sc
  rcases le_or_lt sc r.max_score with h | h
  · rw [if_neg (not_lt.mpr h), max_eq_left h]
  · rw [if_pos h, max_eq_right h.le]

theorem ctxInv_nil : ctxInv [] := by
  intro uid r h
  simp [lookupA] at h

theorem ctxInv_setA_record {d : CtxData} (hinv : ctxInv d) {r : PlayerRecord}
    (hr : goodRec r) (uid : String) : ctxInv (setA d uid (.record r)) := by
  intro u2 r2 h2
  by_cases he : u2 = uid
  · subst he
    rw [lookupA_setA_self] at h2
    cases h2
    exact hr
  · rw [lookupA_setA_ne _ _ _ _ he] at h2
    exact hinv u2 r2 h2

theorem ctxInv_setA_flag {d : CtxData} (hinv : ctxInv d) (k : String) (b : Bool) :
    ctxInv (setA d k (.flag b)) := by
  intro u2 r2 h2
  by_cases he : u2 = k
  · subst he
    rw [lookupA_setA_self] at h2
    cases h2
  · rw [lookupA_setA_ne _ _ _ _ he] at h2
    exact hinv u2 r2 h2

theorem ctxInv_of_entries {d : CtxData}
    (h : ∀ p ∈ d, ∀ r, p.2 = Entry.record r → goodRec r) : ctxInv d := by
  intro uid r hl
  exact h (uid, Entry.record r) (lookupA_mem hl) r rfl

/-! ### Settlement-loop lemmas -/

theorem settleGo_some (p : List (String × String)) :
    ∀ (l : List (String × ℤ)) (rank : ℕ) (d : CtxData),
      1 ≤ rank → rank + l.length ≤ 5 → (settleGo p rank l d).isSome := by
  intro l
  induction l with
  | nil =>
    intro rank d _ _
    simp [settleGo]
  | cons x rest ih =>
    intro rank d h1 h2
    obtain ⟨uid, sc⟩ := x
    have hb : rank ≤ 4 := by
      simp only [List.length_cons] at h2
      omega
    rw [show settleGo p rank ((uid, sc) :: rest) d =
        (match calculate_pt_custom sc rank with
        | none => none
        | some pt =>
          settleGo p (rank + 1) rest
            (setA d uid (.record (updateRec
              (getOrCreateRec d uid ((lookupA p uid).getD "")) ((lookupA p uid).getD "")
              pt rank sc))) : Option CtxData) from rfl]
    rw [calculate_pt_eq sc rank h1 hb]
    exact ih (rank + 1) _ (by omega) (by simp only [List.length_cons] at h2; omega)

theorem settleGo_notMem (p : List (String × String)) :
    ∀ (l : List (String × ℤ)) (rank : ℕ) (d d2 : CtxData) (uid : String),
      uid ∉ l.map Prod.fst → settleGo p rank l d = some d2 →
      lookupA d2 uid = lookupA d uid := by
  intro l
  induction l with
  | nil =>
    intro rank d d2 uid _ h
    simp [settleGo] at h
    rw [h]
  | cons x rest ih =>
    intro rank d d2 uid hmem h
    obtain ⟨u, sc⟩ := x
    simp only [List.map_cons, List.mem_cons] at hmem
    push_neg at hmem
    obtain ⟨hne, hnm⟩ := hmem
    cases hc : calculate_pt_custom sc rank with
    | none => simp [settleGo, hc] at h
    | some pt =>
      simp only [settleGo, hc] at h
      rw [ih (rank + 1) _ d2 uid hnm h]
      exact lookupA_setA_ne _ _ _ _ hne

theorem settleGo_inv (p : List (String × String)) :
    ∀ (l : List (String × ℤ)) (rank : ℕ) (d d2 : CtxData),
      ctxInv d → settleGo p rank l d = some d2 → ctxInv d2 := by
  intro l
  induction l with
  | nil =>
    intro rank d d2 hinv h
    simp [settleGo] at h
    rw [← h]
    exact hinv
  | cons x rest ih =>
    intro rank d d2 hinv h
    obtain ⟨u, sc⟩ := x
    cases hc : calculate_pt_custom sc rank with
    | none => simp [settleGo, hc] at h
    | some pt =>
      simp only [settleGo, hc] at h
      obtain ⟨hb1, hb2⟩ := calculate_pt_rank_bounds hc
      exact ih (rank + 1) _ d2
        (ctxInv_setA_record hinv
          (updateRec_good (getOrCreateRec_good hinv u _) hb1 hb2 _ _ _) u) h

theorem settleGo_mem_avoid (p : List (String × String)) :
    ∀ (l : List (String × ℤ)) (rank : ℕ) (d d2 : CtxData) (uid : String) (sc : ℤ),
      (l.map Prod.fst).Nodup → ctxInv d → settleGo p rank l d = some d2 →
      (uid, sc) ∈ l →
      ∃ r, lookupA d2 uid = some (.record r) ∧ avoidOk r ∧ goodRec r := by
  intro l
  induction l with
  | nil =>
    intro rank d d2 uid sc _ _ _ hm
    simp at hm
  | cons x rest ih =>
    intro rank d d2 uid sc hnd hinv h hm
    obtain ⟨u, s0⟩ := x
    simp only [List.map_cons, List.nodup_cons] at hnd
    obtain ⟨hu, hndr⟩ := hnd
    cases hc : calculate_pt_custom s0 rank with
    | none => simp [settleGo, hc] at h
    | some pt =>
      simp only [settleGo, hc] at h
      obtain ⟨hb1, hb2⟩ := calculate_pt_rank_bounds hc
      have hgood : goodRec (updateRec (getOrCreateRec d u ((lookupA p u).getD ""))
          ((lookupA p u).getD "") pt rank s0) :=
        updateRec_good (getOrCreateRec_good hinv u _) hb1 hb2 _ _ _
      rcases List.mem_cons.mp hm with heq | hmr
      · cases heq
        refine ⟨_, ?_, updateRec_avoidOk _ _ _ _ _, hgood⟩
        rw [settleGo_notMem p rest (rank + 1) _ d2 uid hu h]
        exact lookupA_setA_self _ _ _
      · have hne : uid ≠ u := by
          intro hh
          subst hh
          exact hu (List.mem_map.mpr ⟨(uid, sc), hmr, rfl⟩)
        exact ih (rank + 1) _ d2 uid sc hndr
          (ctxInv_setA_record hinv hgood u) h hmr

theorem settleGo_mem_max (p : List (String × String)) :
    ∀ (l : List (String × ℤ)) (rank : ℕ) (d d2 : CtxData) (uid : String) (sc : ℤ),
      (l.map Prod.fst).Nodup → settleGo p rank l d = some d2 → (uid, sc) ∈ l →
      ∃ r, lookupA d2 uid = some (.record r) ∧
        r.max_score = max (maxScoreIn d uid) sc := by
  intro l
  induction l with
  | nil =>
    intro rank d d2 uid sc _ _ hm
    simp at hm
  | cons x rest ih =>
    intro rank d d2 uid sc hnd h hm
    obtain ⟨u, s0⟩ := x
    simp only [List.map_cons, List.nodup_cons] at hnd
    obtain ⟨hu, hndr⟩ := hnd
    cases hc : calculate_pt_custom s0 rank with
    | none => simp [settleGo, hc] at h
    | some pt =>
      simp only [settleGo, hc] at h
      rcases List.mem_cons.mp hm with heq | hmr
      · cases heq
        refine ⟨updateRec (getOrCreateRec d uid ((lookupA p uid).getD ""))
          ((lookupA p uid).getD "") pt rank sc, ?_, ?_⟩
        · rw [settleGo_notMem p rest (rank + 1) _ d2 uid hu h]
          exact lookupA_setA_self _ _ _
        · rw [updateRec_max, getOrCreateRec_max]
      · have hne : uid ≠ u := by
          intro hh
          subst hh
          exact hu (List.mem_map.mpr ⟨(uid, sc), hmr, rfl⟩)
        obtain ⟨r, hr1, hr2⟩ := ih (rank + 1) _ d2 uid sc hndr h hmr
        refine ⟨r, hr1, ?_⟩
        rw [hr2]
        have : maxScoreIn (setA d u (.record (updateRec
            (getOrCreateRec d u ((lookupA p u).getD "")) ((lookupA p u).getD "")
            pt rank s0))) uid = maxScoreIn d uid := by
          unfold maxScoreIn
          rw [lookupA_setA_ne _ _ _ _ hne]
        rw [this]

/-! ### Sorting bridges -/

theorem sortScoresDesc_perm (l : List (String × ℤ)) :
    List.Perm (sortScoresDesc l) l :=
  List.perm_insertionSort _ _

theorem sortScoresDesc_keys_perm (l : List (String × ℤ)) :
    List.Perm ((sortScoresDesc l).map Prod.fst) (l.map Prod.fst) :=
  (sortScoresDesc_perm l).map _

theorem sortScoresDesc_length (l : List (String × ℤ)) :
    (sortScoresDesc l).length = l.length :=
  (sortScoresDesc_perm l).length_eq

/-! ### Settlement lemmas at the finalize_match level -/

theorem finalize_match_isSome (d : CtxData) (m : MatchSession)
    (h : m.scores.length = 4) : (finalize_match d m).isSome := by
  unfold finalize_match
  exact settleGo_some _ _ 1 d (by omega) (by rw [sortScoresDesc_length, h])

theorem finalize_match_inv {d d2 : CtxData} {m : MatchSession} (hinv : ctxInv d)
    (h : finalize_match d m = some d2) : ctxInv d2 :=
  settleGo_inv _ _ 1 d d2 hinv h

theorem finalize_match_lookup_none {d d2 : CtxData} {m : MatchSession}
    {uid : String} (h : finalize_match d m = some d2)
    (hn : lookupA m.scores uid = none) : lookupA d2 uid = lookupA d uid := by
  refine settleGo_notMem _ _ 1 d d2 uid ?_ h
  intro hmem
  exact (lookupA_eq_none_iff m.scores uid).mp hn
    ((sortScoresDesc_keys_perm m.scores).mem_iff.mp hmem)

theorem finalize_match_avoid {d d2 : CtxData} {m : MatchSession} {uid : String}
    {sc : ℤ} (hnd : (m.scores.map Prod.fst).Nodup) (hinv : ctxInv d)
    (h : finalize_match d m = some d2) (hsc : lookupA m.scores uid = some sc) :
    ∃ r, lookupA d2 uid = some (.record r) ∧ avoidOk r ∧ goodRec r := by
  refine settleGo_mem_avoid _ _ 1 d d2 uid sc ?_ hinv h ?_
  · exact (sortScoresDesc_keys_perm m.scores).nodup_iff.mpr hnd
  · exact (sortScoresDesc_perm m.scores).mem_iff.mpr (lookupA_mem hsc)

theorem finalize_match_max {d d2 : CtxData} {m : MatchSession} (uid : String)
    (hnd : (m.scores.map Prod.fst).Nodup) (h : finalize_match d m = some d2) :
    maxScoreIn d2 uid =
      match lookupA m.scores uid with
      | some sc => max (maxScoreIn d uid) sc
      | none => maxScoreIn d uid := by
  cases hsc : lookupA m.scores uid with
  | none =>
    show maxScoreIn d2 uid = maxScoreIn d uid
    unfold maxScoreIn
    rw [finalize_match_lookup_none h hsc]
  | some sc =>
    show maxScoreIn d2 uid = max (maxScoreIn d uid) sc
    obtain ⟨r, hr1, hr2⟩ := settleGo_mem_max _ _ 1 d d2 uid sc
      ((sortScoresDesc_keys_perm m.scores).nodup_iff.mpr hnd) h
      ((sortScoresDesc_perm m.scores).mem_iff.mpr (lookupA_mem hsc))
    unfold maxScoreIn
    rw [hr1]
    exact hr2

theorem runMatches_max :
    ∀ (ms : List MatchSession) (d d2 : CtxData) (uid : String),
      (∀ m ∈ ms, (m.scores.map Prod.fst).Nodup) → runMatches d ms = some d2 →
      maxScoreIn d2 uid = (scoresOf uid ms).foldl max (maxScoreIn d uid) := by
  intro ms
  induction ms with
  | nil =>
    intro d d2 uid _ h
    simp [runMatches] at h
    rw [← h]
    simp [scoresOf]
  | cons m ms ih =>
    intro d d2 uid hnd h
    cases hf : finalize_match d m with
    | none => simp [runMatches, hf] at h
    | some d1 =>
      simp only [runMatches, hf] at h
      have hstep := finalize_match_max uid (hnd m (List.mem_cons_self m ms)) hf
      have hrest := ih d1 d2 uid (fun m2 hm2 => hnd m2 (List.mem_cons_of_mem m hm2)) h
      cases hsc : lookupA m.scores uid with
      | none =>
        rw [hsc] at hstep
        simp only [scoresOf, List.filterMap_cons, hsc]
        rw [hrest, hstep]
        rfl
      | some sc =>
        rw [hsc] at hstep
        simp only [scoresOf, List.filterMap_cons, hsc]
        rw [hrest, hstep]
        rfl

/-! ### Chombo, playoff-transition and reset lemmas -/

theorem chomboCtx_inv {d : CtxData} (hinv : ctxInv d) (uid : String) :
    ctxInv (chomboCtx d uid).1 := by
  unfold chomboCtx
  refine ctxInv_setA_record hinv ?_ uid
  exact getOrCreateRec_good hinv uid _

theorem finalsUpd_good {r : PlayerRecord} (hg : goodRec r) :
    goodRec (finalsUpd r) := hg

theorem finalsGo_inv :
    ∀ (uids : List String) (d : CtxData), ctxInv d → ctxInv (finalsGo uids d) := by
  intro uids
  induction uids with
  | nil =>
    intro d hinv
    exact hinv
  | cons u rest ih =>
    intro d hinv
    exact ih _ (ctxInv_setA_record hinv
      (finalsUpd_good (getOrCreateRec_good hinv u _)) u)

theorem setup_finals_inv (d : CtxData) (uids : List String) (hinv : ctxInv d) :
    ctxInv (setup_finals d uids).1 := by
  unfold setup_finals
  split
  · exact hinv
  · split
    · exact hinv
    · exact ctxInv_setA_flag (finalsGo_inv uids d hinv) _ _

theorem getOrCreateRec_setA_ne (d : CtxData) (k k2 nm : String) (e : Entry)
    (h : k2 ≠ k) : getOrCreateRec (setA d k e) k2 nm = getOrCreateRec d k2 nm := by
  unfold getOrCreateRec
  rw [lookupA_setA_ne _ _ _ _ h]

theorem finalsGo_notMem :
    ∀ (uids : List String) (d : CtxData) (uid : String), uid ∉ uids →
      lookupA (finalsGo uids d) uid = lookupA d uid := by
  intro uids
  induction uids with
  | nil =>
    intro d uid _
    rfl
  | cons u rest ih =>
    intro d uid hn
    simp only [List.mem_cons] at hn
    push_neg at hn
    simp only [finalsGo]
    rw [ih _ uid hn.2]
    exact lookupA_setA_ne _ _ _ _ hn.1

theorem finalsGo_mem :
    ∀ (uids : List String) (d : CtxData) (uid : String), uids.Nodup →
      uid ∈ uids →
      lookupA (finalsGo uids d) uid =
        some (.record (finalsUpd (getOrCreateRec d uid ("选手" ++ uid)))) := by
  intro uids
  induction uids with
  | nil =>
    intro d uid _ hm
    simp at hm
  | cons u rest ih =>
    intro d uid hnd hm
    simp only [List.nodup_cons] at hnd
    obtain ⟨hu, hndr⟩ := hnd
    rcases List.mem_cons.mp hm with heq | hmr
    · subst heq
      simp only [finalsGo]
      rw [finalsGo_notMem rest _ uid hu]
      exact lookupA_setA_self _ _ _
    · have hne : uid ≠ u := fun hh => hu (hh ▸ hmr)
      simp only [finalsGo]
      rw [ih _ uid hndr hmr, getOrCreateRec_setA_ne _ _ _ _ _ hne]

/-! ### Sortedness instances and lemmas for the leaderboards -/

instance : IsTotal PlayerRecord (fun p q => q.total_pt ≤ p.total_pt) :=
  ⟨fun a b => le_total b.total_pt a.total_pt⟩

instance : IsTrans PlayerRecord (fun p q => q.total_pt ≤ p.total_pt) :=
  ⟨fun _ _ _ h1 h2 => le_trans h2 h1⟩

instance : IsTotal (String × PlayerRecord)
    (fun p q => q.2.total_pt ≤ p.2.total_pt) :=
  ⟨fun a b => le_total b.2.total_pt a.2.total_pt⟩

instance : IsTrans (String × PlayerRecord)
    (fun p q => q.2.total_pt ≤ p.2.total_pt) :=
  ⟨fun _ _ _ h1 h2 => le_trans h2 h1⟩

theorem sortFinalists_perm (l : List PlayerRecord) :
    List.Perm (sortFinalists l) l :=
  List.perm_insertionSort _ _

theorem sortFinalists_sorted (l : List PlayerRecord) :
    List.Sorted (fun p q : PlayerRecord => q.total_pt ≤ p.total_pt)
      (sortFinalists l) :=
  List.sorted_insertionSort _ _

theorem sortRecsDescPt_perm (l : List (String × PlayerRecord)) :
    List.Perm (sortRecsDescPt l) l :=
  List.perm_insertionSort _ _

theorem sortRecsDescPt_sorted (l : List (String × PlayerRecord)) :
    List.Sorted (fun p q : String × PlayerRecord => q.2.total_pt ≤ p.2.total_pt)
      (sortRecsDescPt l) :=
  List.sorted_insertionSort _ _

/-! ### Claim theorems -/

/-- C2: for every integer score and every rank in {1,2,3,4} the score-to-pt
conversion returns round((score - 30000)/1000 + uma[rank], 1) with
uma = {1: 50, 2: 10, 3: -10, 4: -30} (it is a pure function of its two
arguments, hence deterministic); and with 4 recorded scores the settlement
engine only ever passes ranks 1..4, so the KeyError branch of final_uma is
unreachable: finalize_match always succeeds. -/
theorem claim_C2 :
    (∀ (sc : ℤ) (rank : ℕ), 1 ≤ rank → rank ≤ 4 →
      calculate_pt_custom sc rank =
        some (round1 (((sc : ℚ) - 30000) / 1000 + umaSpec rank))) ∧
    (∀ (d : CtxData) (m : MatchSession), m.scores.length = 4 →
      (finalize_match d m).isSome) :=
  ⟨calculate_pt_eq, finalize_match_isSome⟩

/-- Witness for C2 at score 35000, rank 1, and at a concrete 4-score
session. -/
theorem claim_C2_witness :
    calculate_pt_custom 35000 1 =
      some (round1 ((((35000 : ℤ) : ℚ) - 30000) / 1000 + umaSpec 1)) ∧
    (finalize_match [] mW).isSome :=
  ⟨claim_C2.1 35000 1 (by decide) (by decide), claim_C2.2 [] mW (by rfl)⟩

/-- C3: the settlement engine preserves the invariant sum(ranks) =
total_matches on every stored record and establishes, for each participant
of the settled match, avoid_4_rate = round(100 * sum(ranks[0:3]) /
total_matches, 2); the chombo penalty, the playoff transition and the season
reset also preserve the invariant. -/
theorem claim_C3 :
    (∀ (d : CtxData) (m : MatchSession) (d2 : CtxData), ctxInv d →
      finalize_match d m = some d2 →
      ctxInv d2 ∧
      ((m.scores.map Prod.fst).Nodup → ∀ (uid : String) (sc : ℤ),
        lookupA m.scores uid = some sc →
        ∃ r, lookupA d2 uid = some (.record r) ∧ goodRec r ∧ avoidOk r)) ∧
    (∀ (d : CtxData) (uid : String), ctxInv d → ctxInv (chomboCtx d uid).1) ∧
    (∀ (d : CtxData) (uids : List String), ctxInv d →
      ctxInv (setup_finals d uids).1) ∧
    (∀ (s : PluginState) (ctx : String),
      ctxInv ((lookupA (reset_season s ctx).data ctx).getD [])) := by
  refine ⟨?_, ?_, ?_, ?_⟩
  · intro d m d2 hinv h
    refine ⟨finalize_match_inv hinv h, ?_⟩
    intro hnd uid sc hsc
    obtain ⟨r, h1, h2, h3⟩ := finalize_match_avoid hnd hinv h hsc
    exact ⟨r, h1, h3, h2⟩
  · intro d uid hinv
    exact chomboCtx_inv hinv uid
  · intro d uids hinv
    exact setup_finals_inv d uids hinv
  · intro s ctx
    have hd : (lookupA (reset_season s ctx).data ctx).getD [] = ([] : CtxData) := by
      show (lookupA (if (lookupA s.data ctx).isSome then setA s.data ctx []
        else s.data) ctx).getD [] = []
      by_cases h : (lookupA s.data ctx).isSome
      · rw [if_pos h, lookupA_setA_self]
        rfl
      · rw [if_neg h, Option.not_isSome_iff_eq_none.mp h]
        rfl
    rw [hd]
    exact ctxInv_nil

/-- Witness for C3: the chombo and playoff conjuncts at the empty store, and
the settlement conjunct at a concrete 4-score session. -/
theorem claim_C3_witness :
    ctxInv ((chomboCtx [] "u1").1) ∧
    ctxInv ((setup_finals [] ["a", "b", "c", "d"]).1) ∧
    (∃ r, lookupA ((finalize_match [] mW).getD []) "a" = some (.record r) ∧
      goodRec r ∧ avoidOk r) :=
  ⟨claim_C3.2.1 [] "u1" ctxInv_nil,
   claim_C3.2.2.1 [] ["a", "b", "c", "d"] ctxInv_nil,
   (claim_C3.1 [] mW ((finalize_match [] mW).getD []) ctxInv_nil
      (by with_unfolding_all rfl)).2 (by decide) "a" 40000 (by rfl)⟩

/-- C6 counterexample: in the settled match mC6 player b's only recorded
table score is -1000, yet the stored max_score afterwards is 0 — not the
highest single-match score ever recorded for b, refuting the claim as
stated. -/
theorem claim_C6_counterexample :
    (runMatches [] [mC6]).isSome ∧
    scoresOf "b" [mC6] = [-1000] ∧
    maxScoreIn ((runMatches [] [mC6]).getD []) "b" = 0 ∧
    (0 : ℤ) ≠ -1000 :=
  ⟨by with_unfolding_all rfl, by with_unfolding_all rfl,
   by with_unfolding_all rfl, by decide⟩

/-- C6 amended: after every sequence of settled matches, a player's stored
max_score is the running maximum of their recorded table scores started from
the previously stored maximum — 0 for a fresh record — i.e. max(0, highest
recorded score) rather than the highest recorded score itself when all
scores are negative. -/
theorem claim_C6 (ms : List MatchSession) (d d2 : CtxData) (uid : String)
    (hnd : ∀ m ∈ ms, (m.scores.map Prod.fst).Nodup)
    (hrun : runMatches d ms = some d2) :
    maxScoreIn d2 uid = (scoresOf uid ms).foldl max (maxScoreIn d uid) :=
  runMatches_max ms d d2 uid hnd hrun

/-- Witness for C6 on the concrete match sequence [mC6] from the empty
store. -/
theorem claim_C6_witness :
    maxScoreIn ((runMatches [] [mC6]).getD []) "b" =
      (scoresOf "b" [mC6]).foldl max (maxScoreIn [] "b") :=
  claim_C6 [mC6] [] ((runMatches [] [mC6]).getD []) "b" (by decide)
    (by with_unfolding_all rfl)

/-- C7: chombo fetch-or-creates the target's record (a never-seen id gets a
placeholder name derived from the id, zero matches and zero rank counters,
and ends with total_pt = -20.0), subtracts exactly 20.0 from total_pt
re-rounded to 1 decimal, stores the result, and reports the updated total_pt
and the name; the session map (active_matches) is untouched. -/
theorem claim_C7 (s : PluginState) (ctx uid : String) :
    (chombo s ctx uid).1.active = s.active ∧
    lookupA (chombo s ctx uid).1.data ctx =
      some (chomboCtx ((lookupA s.data ctx).getD []) uid).1 ∧
    lookupA (chomboCtx ((lookupA s.data ctx).getD []) uid).1 uid =
      some (.record { getOrCreateRec ((lookupA s.data ctx).getD []) uid
        ("用户" ++ uid) with
        total_pt := round1 ((getOrCreateRec ((lookupA s.data ctx).getD []) uid
          ("用户" ++ uid)).total_pt - 20) }) ∧
    (chombo s ctx uid).2.1 =
      round1 ((getOrCreateRec ((lookupA s.data ctx).getD []) uid
        ("用户" ++ uid)).total_pt - 20) ∧
    (chombo s ctx uid).2.2 =
      (getOrCreateRec ((lookupA s.data ctx).getD []) uid ("用户" ++ uid)).name ∧
    (lookupA ((lookupA s.data ctx).getD []) uid = none →
      (chombo s ctx uid).2.1 = -20 ∧
      (chombo s ctx uid).2.2 = "用户" ++ uid ∧
      lookupA (chomboCtx ((lookupA s.data ctx).getD []) uid).1 uid =
        some (.record { defaultRec ("用户" ++ uid) with total_pt := -20 })) := by
  have harith : round1 ((0 : ℚ) - 20) = -20 := by
    with_unfolding_all rfl
  refine ⟨rfl, ?_, ?_, rfl, rfl, ?_⟩
  · show lookupA (setA s.data ctx
      (chomboCtx ((lookupA s.data ctx).getD []) uid).1) ctx = _
    exact lookupA_setA_self _ _ _
  · show lookupA (setA ((lookupA s.data ctx).getD []) uid (.record _)) uid = _
    exact lookupA_setA_self _ _ _
  · intro h
    have hr0 : getOrCreateRec ((lookupA s.data ctx).getD []) uid ("用户" ++ uid) =
        defaultRec ("用户" ++ uid) := by
      unfold getOrCreateRec
      rw [h]
    have hpt : (defaultRec ("用户" ++ uid)).total_pt = (0 : ℚ) := rfl
    refine ⟨?_, ?_, ?_⟩
    · show round1 ((getOrCreateRec ((lookupA s.data ctx).getD []) uid
        ("用户" ++ uid)).total_pt - 20) = -20
      rw [hr0, hpt]
      exact harith
    · show (getOrCreateRec ((lookupA s.data ctx).getD []) uid
        ("用户" ++ uid)).name = "用户" ++ uid
      rw [hr0]
      rfl
    · show lookupA (setA ((lookupA s.data ctx).getD []) uid (.record _)) uid = _
      rw [lookupA_setA_self, hr0, hpt, harith]

/-- Witness for C7 on a fresh state (the implication hypothesis is
discharged at the never-seen id u9). -/
theorem claim_C7_witness :
    (chombo { data := [], active := [] } "g1" "u9").1.active = [] ∧
    (chombo { data := [], active := [] } "g1" "u9").2.1 = -20 ∧
    (chombo { data := [], active := [] } "g1" "u9").2.2 = "用户" ++ "u9" := by
  have h := claim_C7 { data := [], active := [] } "g1" "u9"
  exact ⟨h.1, (h.2.2.2.2.2 (by rfl)).1, (h.2.2.2.2.2 (by rfl)).2.1⟩

/-- C8: season reset destroys any active session for the context and leaves
the context with no player records and the is_playoffs flag absent, whatever
the prior state was. -/
theorem claim_C8 (s : PluginState) (ctx : String) :
    lookupA (reset_season s ctx).active ctx = none ∧
    (∀ uid, lookupA ((lookupA (reset_season s ctx).data ctx).getD []) uid = none) ∧
    getPlayoffs ((lookupA (reset_season s ctx).data ctx).getD []) = false := by
  have hd : (lookupA (reset_season s ctx).data ctx).getD [] = ([] : CtxData) := by
    show (lookupA (if (lookupA s.data ctx).isSome then setA s.data ctx []
      else s.data) ctx).getD [] = []
    by_cases h : (lookupA s.data ctx).isSome
    · rw [if_pos h, lookupA_setA_self]
      rfl
    · rw [if_neg h, Option.not_isSome_iff_eq_none.mp h]
      rfl
  refine ⟨lookupA_eraseA s.active ctx, ?_, ?_⟩
  · intro uid
    rw [hd]
    rfl
  · rw [hd]
    rfl

/-- C5 (evaluating the code at the failing input): in the store dC5 the
player-record set is non-empty and the is_playoffs flag entry is present in
the same mapping; the raw-pt ranking query does not complete — sorting every
stored entry by its total_pt field subscripts the boolean flag and raises
TypeError — contradicting the claim that the query always succeeds and skips
the reserved flag entry. -/
theorem claim_C5 :
    getPlayoffs dC5 = true ∧
    dC5.isEmpty = false ∧
    lookupA dC5 "u1" = some (.record (defaultRec "A")) ∧
    show_rank_pt dC5 = .error .typeError := by
  refine ⟨by with_unfolding_all rfl, by with_unfolding_all rfl,
    by with_unfolding_all rfl, by with_unfolding_all rfl⟩

/-- C10: on any store with the is_playoffs flag set, the playoff leaderboard
query succeeds and returns exactly the stored dict records whose is_finalist
field is true — the non-dict flag entry is filtered out — in descending
order of total_pt. -/
theorem claim_C10 (d : CtxData) (h : getPlayoffs d = true) :
    show_finals_rank d = .ok (sortFinalists (finalistRecs d)) ∧
    List.Perm (sortFinalists (finalistRecs d)) (finalistRecs d) ∧
    List.Sorted (fun p q : PlayerRecord => q.total_pt ≤ p.total_pt)
      (sortFinalists (finalistRecs d)) := by
  refine ⟨?_, sortFinalists_perm _, sortFinalists_sorted _⟩
  unfold show_finals_rank
  rw [h]
  rfl

/-- Witness for C10 on the concrete playoff store dC10. -/
theorem claim_C10_witness :
    show_finals_rank dC10 = .ok (sortFinalists (finalistRecs dC10)) ∧
    List.Perm (sortFinalists (finalistRecs dC10)) (finalistRecs dC10) ∧
    List.Sorted (fun p q : PlayerRecord => q.total_pt ≤ p.total_pt)
      (sortFinalists (finalistRecs dC10)) :=
  claim_C10 dC10 (by with_unfolding_all rfl)

/-- C4: the playoff transition, on a context not already in playoffs and
with exactly 4 distinct finalist ids, reports success, calls the store save,
sets the context is_playoffs flag, and gives every finalist record (created
fresh if absent) regular_raw_pt = its pre-transition total_pt,
regular_ranking_pt = total_pt - max(0, 18 - total_matches) * 50, the new
total_pt = round(regular_ranking_pt / 2, 1) and is_finalist = true. -/
theorem claim_C4 (d : CtxData) (uids : List String)
    (hnp : getPlayoffs d = false) (hlen : uids.length = 4) (hnd : uids.Nodup)
    (hkey : "is_playoffs" ∉ uids) :
    (setup_finals d uids).2.2 = .ok ∧
    (setup_finals d uids).2.1 = true ∧
    getPlayoffs (setup_finals d uids).1 = true ∧
    ∀ uid ∈ uids, ∃ r, lookupA (setup_finals d uids).1 uid = some (.record r) ∧
      r.regular_raw_pt = some (getOrCreateRec d uid ("选手" ++ uid)).total_pt ∧
      r.regular_ranking_pt =
        some ((getOrCreateRec d uid ("选手" ++ uid)).total_pt -
          ((max 0 (18 - ((getOrCreateRec d uid ("选手" ++ uid)).total_matches : ℤ)) : ℤ) : ℚ) * 50) ∧
      r.total_pt =
        round1 (((getOrCreateRec d uid ("选手" ++ uid)).total_pt -
          ((max 0 (18 - ((getOrCreateRec d uid ("选手" ++ uid)).total_matches : ℤ)) : ℤ) : ℚ) * 50) / 2) ∧
      r.is_finalist = true := by
  have hset : setup_finals d uids =
      (setA (finalsGo uids d) "is_playoffs" (.flag true), true, .ok) := by
    unfold setup_finals
    rw [hnp]
    simp [hlen]
  refine ⟨by rw [hset], by rw [hset], ?_, ?_⟩
  · rw [hset]
    show getPlayoffs (setA (finalsGo uids d) "is_playoffs" (.flag true)) = true
    unfold getPlayoffs
    rw [lookupA_setA_self]
    rfl
  · intro uid hm
    have hne : uid ≠ "is_playoffs" := fun hh => hkey (hh ▸ hm)
    refine ⟨finalsUpd (getOrCreateRec d uid ("选手" ++ uid)), ?_, rfl, rfl, rfl, rfl⟩
    rw [hset]
    show lookupA (setA (finalsGo uids d) "is_playoffs" (.flag true)) uid = _
    rw [lookupA_setA_ne _ _ _ _ hne]
    exact finalsGo_mem uids d uid hnd hm

/-- Witness for C4 on the empty store with four fresh finalists. -/
theorem claim_C4_witness :
    getPlayoffs (setup_finals [] ["a", "b", "c", "d"]).1 = true :=
  (claim_C4 [] ["a", "b", "c", "d"] (by rfl) (by rfl) (by decide)
    (by decide)).2.2.1

/-- C9: in a playing session where fewer than 4 distinct participants have
recorded scores, a participant resubmitting a score only replaces their own
previously recorded value (latest wins), leaves every other recorded score,
the player set and the playing state unchanged, and yields the recorded
count — settlement is not triggered. -/
theorem claim_C9 (d : CtxData) (m : MatchSession) (uid : String) (sc oldsc : ℤ)
    (hst : m.status = .playing) (hp : (lookupA m.players uid).isSome)
    (hold : lookupA m.scores uid = some oldsc) (hlt : m.scores.length < 4) :
    end_match d m uid sc =
      some (some { m with scores := setA m.scores uid sc }, d,
        .recorded m.scores.length) ∧
    lookupA (setA m.scores uid sc) uid = some sc ∧
    (∀ uid2, uid2 ≠ uid →
      lookupA (setA m.scores uid sc) uid2 = lookupA m.scores uid2) ∧
    (setA m.scores uid sc).length = m.scores.length := by
  have hlen : (setA m.scores uid sc).length = m.scores.length :=
    length_setA_of_isSome sc (by rw [hold]; rfl)
  refine ⟨?_, lookupA_setA_self _ _ _,
    fun uid2 h2 => lookupA_setA_ne _ _ _ _ h2, hlen⟩
  have hnn : (lookupA m.players uid).isNone = false := by
    cases hcase : lookupA m.players uid with
    | none => rw [hcase] at hp; exact absurd hp (by simp)
    | some nm => rfl
  unfold end_match
  rw [hst, if_neg (by simp), if_neg (by simp [hnn])]
  show (if (setA m.scores uid sc).length = 4 then _ else _) = _
  rw [if_neg (by omega), hlen]

/-- C1: when a submission in a playing session brings the recorded scores to
all 4 participants, exactly one of two outcomes happens — a sum other than
100000 yields a mismatch report carrying the exact total, the signed
difference from 100000 and every player's current submission, with the
session kept in playing state with its players and its (just-updated) scores;
a sum of exactly 100000 runs settlement and destroys the session — and the
settle outcome is produced under no other condition. -/
theorem claim_C1 :
    (∀ (d : CtxData) (m : MatchSession) (uid : String) (sc : ℤ),
      m.status = .playing → (lookupA m.players uid).isSome →
      (setA m.scores uid sc).length = 4 →
      ((((setA m.scores uid sc).map Prod.snd).sum ≠ 100000 →
        end_match d m uid sc =
          some (some { m with scores := setA m.scores uid sc }, d,
            .mismatch (((setA m.scores uid sc).map Prod.snd).sum)
              ((((setA m.scores uid sc).map Prod.snd).sum) - 100000)
              (detailsOf { m with scores := setA m.scores uid sc })) ∧
        ({ m with scores := setA m.scores uid sc } : MatchSession).status =
          .playing ∧
        ({ m with scores := setA m.scores uid sc } : MatchSession).players =
          m.players) ∧
      (((setA m.scores uid sc).map Prod.snd).sum = 100000 →
        ∃ d2, finalize_match d { m with scores := setA m.scores uid sc } =
            some d2 ∧
          end_match d m uid sc = some (none, d2, .settle)))) ∧
    (∀ (d : CtxData) (m : MatchSession) (uid : String) (sc : ℤ)
      (om : Option MatchSession) (d2 : CtxData),
      end_match d m uid sc = some (om, d2, .settle) →
      m.status = .playing ∧ (lookupA m.players uid).isSome ∧
      (setA m.scores uid sc).length = 4 ∧
      ((setA m.scores uid sc).map Prod.snd).sum = 100000 ∧ om = none) := by
  constructor
  · intro d m uid sc hst hp h4
    have hnn : (lookupA m.players uid).isNone = false := by
      cases hcase : lookupA m.players uid with
      | none => rw [hcase] at hp; exact absurd hp (by simp)
      | some nm => rfl
    constructor
    · intro hsum
      refine ⟨?_, hst, rfl⟩
      unfold end_match
      rw [if_neg (by simp [hst]), if_neg (by simp [hnn])]
      dsimp only
      rw [if_pos h4, if_pos hsum]
    · intro hsum
      have hfin : (finalize_match d
          { m with scores := setA m.scores uid sc }).isSome :=
        finalize_match_isSome d _ h4
      obtain ⟨d2, hd2⟩ := Option.isSome_iff_exists.mp hfin
      refine ⟨d2, hd2, ?_⟩
      unfold end_match
      rw [if_neg (by simp [hst]), if_neg (by simp [hnn])]
      dsimp only
      rw [if_pos h4, if_neg (by omega), hd2]
      rfl
  · intro d m uid sc om d2 h
    unfold end_match at h
    by_cases hst : m.status = .playing
    · rw [hst] at h
      rw [if_neg (by simp)] at h
      by_cases hpn : (lookupA m.players uid).isNone
      · rw [if_pos hpn] at h
        simp [Prod.ext_iff] at h
      · rw [if_neg hpn] at h
        dsimp only at h
        have hps : (lookupA m.players uid).isSome := by
          cases hcase : lookupA m.players uid with
          | none => rw [hcase] at hpn; simp at hpn
          | some v => rfl
        refine ⟨hst, hps, ?_⟩
        by_cases h4 : (setA m.scores uid sc).length = 4
        · rw [if_pos h4] at h
          by_cases hsum : ((setA m.scores uid sc).map Prod.snd).sum = 100000
          · refine ⟨h4, hsum, ?_⟩
            rw [if_neg (by omega)] at h
            cases hfin : finalize_match d
                { players := m.players, scores := setA m.scores uid sc,
                  status := MatchStatus.playing } with
            | none => rw [hfin] at h; simp at h
            | some d3 =>
              rw [hfin] at h
              have h2 := Option.some.inj h
              exact (congrArg Prod.fst h2).symm
          · rw [if_pos hsum] at h
            simp [Prod.ext_iff] at h
        · rw [if_neg h4] at h
          simp [Prod.ext_iff] at h
    · rw [if_pos (by simpa using hst)] at h
      simp [Prod.ext_iff] at h

/-- Witness for C9: participant a resubmits before the 4th score is in. -/
theorem claim_C9_witness :
    end_match [] mPartial "a" 35000 =
      some (some { mPartial with scores := setA mPartial.scores "a" 35000 }, [],
        .recorded mPartial.scores.length) ∧
    lookupA (setA mPartial.scores "a" 35000) "a" = some 35000 ∧
    (∀ uid2, uid2 ≠ "a" →
      lookupA (setA mPartial.scores "a" 35000) uid2 =
        lookupA mPartial.scores uid2) ∧
    (setA mPartial.scores "a" 35000).length = mPartial.scores.length :=
  claim_C9 [] mPartial "a" 35000 40000 rfl (by decide) (by decide) (by decide)

/-- Witness for C1: participant d's 4th submission, once with a sum of
exactly 100000 (settling) and once 1000 short (mismatch report). -/
theorem claim_C1_witness :
    (∃ d2, finalize_match []
        { mPartial with scores := setA mPartial.scores "d" 10000 } = some d2 ∧
      end_match [] mPartial "d" 10000 = some (none, d2, .settle)) ∧
    end_match [] mPartial "d" 9000 =
      some (some { mPartial with scores := setA mPartial.scores "d" 9000 }, [],
        .mismatch (((setA mPartial.scores "d" 9000).map Prod.snd).sum)
          ((((setA mPartial.scores "d" 9000).map Prod.snd).sum) - 100000)
          (detailsOf { mPartial with scores := setA mPartial.scores "d" 9000 })) :=
  ⟨(claim_C1.1 [] mPartial "d" 10000 rfl (by decide) (by decide)).2 (by decide),
   ((claim_C1.1 [] mPartial "d" 9000 rfl (by decide) (by decide)).1 (by decide)).1⟩
